import Mathlib

/-!
Shallow embedding of the stage-gated session core of the shock-block
repository (Handover system, input pipeline, charge state machine, aim
state machine), together with theorems settling the spec claims.

Conventions:
* TypeScript numbers used as millisecond timestamps are modelled as `Int`;
  power values and angles are modelled as `Rat`.
* A TypeScript method that mutates `this` becomes a function returning the
  new state (paired with its return value where the method returns one).
* `Record<string, any>` maps that no claim touches (`Stage.metadata`,
  `Roadmap.metadata`, `Session.state`) are omitted from the embedding.
* Where a component emits scene events, the embedded operation returns the
  list of events emitted during the call, in emission order.
-/

/-- `Math.min` on rationals, written so that the kernel can evaluate it. -/
def jsMin (a b : Rat) : Rat := if a ≤ b then a else b

/-- `Math.max` on rationals, written so that the kernel can evaluate it. -/
def jsMax (a b : Rat) : Rat := if a ≤ b then b else a

/-- `Math.abs` on rationals, written so that the kernel can evaluate it. -/
def jsAbs (a : Rat) : Rat := if a < 0 then -a else a

/-- `Math.abs` on integers, written so that the kernel can evaluate it. -/
def jsAbsInt (a : Int) : Int := if a < 0 then -a else a

theorem jsMin_eq (a b : Rat) : jsMin a b = min a b := (min_def a b).symm

theorem jsMax_eq (a b : Rat) : jsMax a b = max a b := (max_def a b).symm

theorem jsAbs_eq (a : Rat) : jsAbs a = |a| := by
  unfold jsAbs
  by_cases h : a < 0
  · simp [h, abs_of_neg h]
  · simp [h, abs_of_nonneg (not_lt.mp h)]

/-- Rewrites used when evaluating the embedded definitions on concrete
states. -/
theorem optNoneSome {α : Type} (a : α) : ((none : Option α) = some a) = False := by simp

theorem optSomeNone {α : Type} (a : α) : ((some a : Option α) = none) = False := by simp

theorem optSomeSome {α : Type} (a b : α) : ((some a : Option α) = some b) = (a = b) := by simp

theorem jsAbsInt_eq (a : Int) : jsAbsInt a = |a| := by
  unfold jsAbsInt
  by_cases h : a < 0
  · simp [h, abs_of_neg h]
  · simp [h, abs_of_nonneg (not_lt.mp h)]

/-- Stage (src/src/game/systems/Handover.ts, class `Stage`): a named stage
with its whitelist of allowed actions. -/
structure Stage where
  name : String
  allowedActions : List String
deriving DecidableEq, Repr

/-- `Stage.isActionAllowed` (Handover.ts line 107): membership test via
`allowedActions.includes(action)`. -/
def Stage.isActionAllowed (st : Stage) (action : String) : Bool :=
  st.allowedActions.contains action

/-- Roadmap (Handover.ts, class `Roadmap`): a named ordered sequence of
stages. -/
structure Roadmap where
  name : String
  stages : List Stage
deriving DecidableEq, Repr

/-- Session (Handover.ts, class `Session`): an id, a fixed roadmap and the
current stage index.  The constructor sets `currentStageIndex = 0`. -/
structure Session where
  id : String
  roadmap : Roadmap
  currentStageIndex : Nat
deriving DecidableEq, Repr

/-- `Session.getCurrentStage` (Handover.ts lines 33-39): `null` when the
roadmap has no stages, otherwise `stages[currentStageIndex]` (JS indexing
out of range yields `undefined`, modelled by `List.get?`). -/
def Session.getCurrentStage (s : Session) : Option Stage :=
  if s.roadmap.stages = [] then none
  else s.roadmap.stages.get? s.currentStageIndex

/-- `Session.advanceStage` (Handover.ts lines 44-50): increments the index
when `currentStageIndex < stages.length - 1` (over JS numbers, equivalent
to `currentStageIndex + 1 < stages.length`), else returns false. -/
def Session.advanceStage (s : Session) : Session × Bool :=
  if s.currentStageIndex + 1 < s.roadmap.stages.length then
    ({ s with currentStageIndex := s.currentStageIndex + 1 }, true)
  else (s, false)

/-- `Session.setStage` (Handover.ts lines 55-61): bounds-checked index
assignment.  The JS argument is an arbitrary number, modelled as `Int`. -/
def Session.setStage (s : Session) (index : Int) : Session × Bool :=
  if 0 ≤ index ∧ index < (s.roadmap.stages.length : Int) then
    ({ s with currentStageIndex := index.toNat }, true)
  else (s, false)

/-- `Session.setStageByName` (Handover.ts lines 66-73): `findIndex` on the
stage name; `-1` (here `none`) leaves the session unchanged. -/
def Session.setStageByName (s : Session) (nm : String) : Session × Bool :=
  match s.roadmap.stages.findIdx? (fun st => st.name = nm) with
  | some i => ({ s with currentStageIndex := i }, true)
  | none => (s, false)

/-- Events observable by scene subscribers.  The spec's
`handover-stage-changed` notification carries the previous and the new
stage. -/
inductive HandoverEvent where
  | stageChanged (previous : Option Stage) (current : Stage)
deriving DecidableEq, Repr

/-- Handover (Handover.ts, class `Handover`): the singleton session
registry and gate.  `sessions` models the `Map<string, Session>` as an
association list. -/
structure Handover where
  initialized : Bool
  defaultRoadmap : Option Roadmap
  sessions : List (String × Session)
  currentSessionId : Option String
deriving DecidableEq, Repr

/-- The state set up by Handover's private constructor
(Handover.ts lines 158-163). -/
def Handover.fresh : Handover :=
  { initialized := false, defaultRoadmap := none, sessions := [], currentSessionId := none }

/-- `Map.get` on the session registry. -/
def sessionsLookup (l : List (String × Session)) (k : String) : Option Session :=
  match l.find? (fun p => p.1 = k) with
  | some p => some p.2
  | none => none

/-- `Map.set` on the session registry: overwrite an existing key, else
append. -/
def sessionsSet (l : List (String × Session)) (k : String) (v : Session) :
    List (String × Session) :=
  if (l.find? (fun p => p.1 = k)).isSome then
    l.map (fun p => if p.1 = k then (k, v) else p)
  else l ++ [(k, v)]

/-- `Handover.initialize` (Handover.ts lines 178-181), renamed because
`initialize` is reserved in Lean: installs the default roadmap and marks
the system initialized. -/
def Handover.initializeSystem (h : Handover) (roadmap : Roadmap) : Handover :=
  { h with defaultRoadmap := some roadmap, initialized := true }

/-- `Handover.startSession` (Handover.ts lines 193-210): fails when not
initialized; otherwise resolves `roadmap || defaultRoadmap`, failing when
both are absent; otherwise registers a fresh session at stage index 0 and
makes it current. -/
def Handover.startSession (h : Handover) (sessionId : String)
    (roadmap : Option Roadmap) : Handover × Option Session :=
  if h.initialized = false then (h, none)
  else
    match (match roadmap with | some r => some r | none => h.defaultRoadmap) with
    | none => (h, none)
    | some rm =>
      let sess : Session := { id := sessionId, roadmap := rm, currentStageIndex := 0 }
      ({ h with sessions := sessionsSet h.sessions sessionId sess,
                currentSessionId := some sessionId }, some sess)

/-- `Handover.endSession` (Handover.ts lines 216-229). -/
def Handover.endSession (h : Handover) (sessionId : Option String) : Handover × Bool :=
  match sessionId.orElse (fun _ => h.currentSessionId) with
  | none => (h, false)
  | some idToEnd =>
    if (sessionsLookup h.sessions idToEnd).isSome then
      ({ h with sessions := h.sessions.filter (fun p => !(p.1 = idToEnd)),
                currentSessionId :=
                  if h.currentSessionId = some idToEnd then none else h.currentSessionId },
       true)
    else (h, false)

/-- `Handover.getCurrentSession` (Handover.ts lines 234-240). -/
def Handover.getCurrentSession (h : Handover) : Option Session :=
  match h.currentSessionId with
  | none => none
  | some sid => sessionsLookup h.sessions sid

/-- `Handover.getCurrentStage` (Handover.ts lines 263-270). -/
def Handover.getCurrentStage (h : Handover) : Option Stage :=
  match h.getCurrentSession with
  | none => none
  | some sess => sess.getCurrentStage

/-- `Handover.isActionAllowed` (Handover.ts lines 275-282): false without a
current stage, else the stage's own membership test. -/
def Handover.isActionAllowed (h : Handover) (action : String) : Bool :=
  match h.getCurrentStage with
  | none => false
  | some stage => stage.isActionAllowed action

/-- Write an updated current session back into the registry (TypeScript
mutates the session object held by the map; the embedding re-inserts it
under the current session id). -/
def Handover.putCurrentSession (h : Handover) (sess : Session) : Handover :=
  match h.currentSessionId with
  | none => h
  | some sid => { h with sessions := sessionsSet h.sessions sid sess }

/-- `Handover.advanceStage` (Handover.ts lines 287-294).  The event
component records every `handover-stage-changed` emission performed by the
source on this path: the source emits none. -/
def Handover.advanceStage (h : Handover) : Handover × Bool × List HandoverEvent :=
  match h.getCurrentSession with
  | none => (h, false, [])
  | some sess =>
    let r := sess.advanceStage
    (h.putCurrentSession r.1, r.2, [])

/-- `Handover.setStage` (Handover.ts lines 323-333, the effective overload
taking a name or an index).  As with `advanceStage`, the event component
records every notification emitted by the source on this path: there are
none. -/
def Handover.setStage (h : Handover) (nameOrIndex : String ⊕ Int) :
    Handover × Bool × List HandoverEvent :=
  match h.getCurrentSession with
  | none => (h, false, [])
  | some sess =>
    match nameOrIndex with
    | Sum.inl nm =>
      let r := sess.setStageByName nm
      (h.putCurrentSession r.1, r.2, [])
    | Sum.inr i =>
      let r := sess.setStage i
      (h.putCurrentSession r.1, r.2, [])

/-- `HandoverManager.performAction` (src/unnamed/part_003 lines 181-189):
runs the callback and returns true exactly when the gate allows the
action; otherwise logs a warning and returns false.  The callback is
modelled as a state transformer on an arbitrary type `α`. -/
def HandoverManager.performAction {α : Type} (h : Handover) (action : String)
    (callback : α → α) (x : α) : Bool × α :=
  if h.isActionAllowed action then (true, callback x)
  else (false, x)

/-- `HandoverFactory.createGameRoadmap` (src/unnamed/part_003 lines 10-44):
the default six-stage game roadmap (metadata omitted). -/
def HandoverFactory.createGameRoadmap : Roadmap :=
  { name := "MainGameRoadmap"
    stages :=
      [ { name := "MainMenu", allowedActions := ["startGame", "openSettings", "viewHelp"] }
      , { name := "GamePreparation", allowedActions := ["aim", "charge", "cancelShot"] }
      , { name := "ActiveGameplay", allowedActions := ["aim", "charge", "fire", "pause"] }
      , { name := "Paused", allowedActions := ["resume", "restart", "quit"] }
      , { name := "LevelComplete", allowedActions := ["nextLevel", "retry", "mainMenu"] }
      , { name := "GameOver", allowedActions := ["restart", "mainMenu"] } ] }

/-- An initialized Handover with one current session on the game roadmap,
as produced by `initialize` + `startSession` (used as a concrete fixture). -/
def demoHandover : Handover :=
  ((Handover.fresh.initializeSystem HandoverFactory.createGameRoadmap).startSession
    "session_1" none).1

/-! ## Input pipeline (src/unnamed/part_004, class `InputSystem`) -/

/-- The two opposing aim directions. -/
inductive PressDir where
  | left
  | right
deriving DecidableEq, Repr

/-- The key string the source uses for a direction. -/
def PressDir.key : PressDir → String
  | .left => "left"
  | .right => "right"

/-- The opposite direction (`direction === 'left' ? 'right' : 'left'`). -/
def PressDir.opposite : PressDir → PressDir
  | .left => .right
  | .right => .left

/-- Domain events emitted by the input pipeline. -/
inductive InputEvent where
  | aim (d : PressDir)
  | chargeStart
  | fire
  | chargeMax
deriving DecidableEq, Repr

/-- InputSystem state (part_004 lines 13-23): per-action last-trigger
timestamps, per-action held flags, the two directional timestamp buffers
and the disabled-key set. -/
structure InputState where
  lastInputTime : List (String × Int)
  isInputActive : List (String × Bool)
  bufferLeft : List Int
  bufferRight : List Int
  disabledKeys : List String
deriving DecidableEq, Repr

/-- The InputSystem constructor initializes empty left/right buffers
(part_004 lines 34-36). -/
def InputState.initial : InputState :=
  { lastInputTime := [], isInputActive := [], bufferLeft := [], bufferRight := [],
    disabledKeys := [] }

/-- `this.inputBuffer[direction]`. -/
def InputState.buffer (s : InputState) : PressDir → List Int
  | .left => s.bufferLeft
  | .right => s.bufferRight

/-- Assignment to `this.inputBuffer[direction]`. -/
def InputState.setBuffer (s : InputState) (d : PressDir) (l : List Int) : InputState :=
  match d with
  | .left => { s with bufferLeft := l }
  | .right => { s with bufferRight := l }

/-- `this.lastInputTime[k]` (absent keys read as JS `undefined`). -/
def InputState.timeOf (s : InputState) (k : String) : Option Int :=
  (s.lastInputTime.find? (fun p => p.1 = k)).map Prod.snd

/-- Assignment to `this.lastInputTime[k]`. -/
def InputState.setTime (s : InputState) (k : String) (t : Int) : InputState :=
  if (s.lastInputTime.find? (fun p => p.1 = k)).isSome then
    { s with lastInputTime := s.lastInputTime.map (fun p => if p.1 = k then (k, t) else p) }
  else { s with lastInputTime := s.lastInputTime ++ [(k, t)] }

/-- `this.isInputActive[k]` with JS truthiness: an absent key reads as
false. -/
def InputState.activeOf (s : InputState) (k : String) : Bool :=
  ((s.isInputActive.find? (fun p => p.1 = k)).map Prod.snd).getD false

/-- Assignment to `this.isInputActive[k]`. -/
def InputState.setActive (s : InputState) (k : String) (b : Bool) : InputState :=
  if (s.isInputActive.find? (fun p => p.1 = k)).isSome then
    { s with isInputActive := s.isInputActive.map (fun p => if p.1 = k then (k, b) else p) }
  else { s with isInputActive := s.isInputActive ++ [(k, b)] }

namespace InputSystem

/-- `BUFFER_SIZE` (part_004 line 20). -/
def BUFFER_SIZE : Nat := 5

/-- Push a timestamp and trim (part_004 lines 132-138): `push(now)`, then
one `shift()` when the buffer length exceeds `BUFFER_SIZE`. -/
def bufferPush (l : List Int) (now : Int) : List Int :=
  let buf := l ++ [now]
  if buf.length > BUFFER_SIZE then buf.drop 1 else buf

/-- `InputSystem.isRapidDirectionChange` (part_004 lines 211-225): true
when the most recent timestamp in the opposite buffer lies within 50 ms of
the most recent timestamp in the current buffer.  In JS, indexing an empty
current buffer yields `undefined` and the NaN comparison is false, hence
the catch-all `false`. -/
def isRapidDirectionChange (s : InputState) (d : PressDir) : Bool :=
  let oppositeBuffer := s.buffer d.opposite
  if oppositeBuffer.isEmpty then false
  else
    match (s.buffer d).getLast?, oppositeBuffer.getLast? with
    | some latestCurrent, some latestOpposite => jsAbsInt (latestCurrent - latestOpposite) < 50
    | _, _ => false

/-- Result of one directional key press: the updated input state, the
domain events emitted, and whether the press reached the action gate
(`performAction`) at all — suppressed or disabled presses never consult
the gate. -/
structure DirResult where
  state : InputState
  events : List InputEvent
  gateConsulted : Bool
deriving DecidableEq, Repr

/-- `InputSystem.handleDirectionalInput` (part_004 lines 126-150): drop
disabled keys; append the timestamp to the direction's buffer (trimming to
`BUFFER_SIZE`); drop the press when `isRapidDirectionChange`; otherwise
hand the `aim` action to the gate, which emits `input-aim-(direction)`
exactly when allowed.  `h` is the Handover singleton behind the
`HandoverManager`. -/
def handleDirectionalInput (h : Handover) (s : InputState) (d : PressDir)
    (now : Int) : DirResult :=
  if s.disabledKeys.contains d.key then { state := s, events := [], gateConsulted := false }
  else
    let s1 := s.setBuffer d (bufferPush (s.buffer d) now)
    if isRapidDirectionChange s1 d then
      { state := s1, events := [], gateConsulted := false }
    else
      let r := HandoverManager.performAction h "aim"
        (fun evs => evs ++ [InputEvent.aim d]) []
      { state := s1, events := r.2, gateConsulted := true }

/-- `InputSystem.update` (part_004 lines 269-281): while the spacebar is
held, once the hold duration exceeds 2000 ms the held flag is cleared and
a single `input-charge-max` event is synthesized.  The source reads
`Date.now()`, modelled by the `now` argument; a missing spacebar timestamp
makes the JS comparison NaN-false. -/
def update (s : InputState) (now : Int) : InputState × List InputEvent :=
  if s.activeOf "spacebar" then
    match s.timeOf "spacebar" with
    | some t =>
      if now - t > 2000 then (s.setActive "spacebar" false, [InputEvent.chargeMax])
      else (s, [])
    | none => (s, [])
  else (s, [])

end InputSystem

/-! ## Charge state machine (src/src/game/systems/ShotSystem.ts) -/

/-- Events emitted by the shot system. -/
inductive ShotEvent where
  | shotFired (power : Rat)
deriving DecidableEq, Repr

/-- ShotSystem state (ShotSystem.ts lines 12-15).  `currentCharge` is an
`Option` because the forced-release path assigns the *undefined* constant
`this.MAX_CHARGE_POWER` to it (`none` models JS `undefined`). -/
structure ShotState where
  isCharging : Bool
  chargeStartTime : Int
  currentCharge : Option Rat
  inCooldown : Bool
deriving DecidableEq, Repr

namespace ShotSystem

/-- `MAX_CHARGE_DURATION` (ShotSystem.ts line 18). -/
def MAX_CHARGE_DURATION : Int := 2000

/-- `MIN_POWER` (line 19). -/
def MIN_POWER : Rat := 1/10

/-- `MAX_POWER` (line 20). -/
def MAX_POWER : Rat := 1

/-- `POWER_RATE` (line 21): 0.0005 power per millisecond. -/
def POWER_RATE : Rat := 1/2000

/-- The power computed by a charge tick at elapsed duration `d`
(ShotSystem.ts lines 209-212): `min(MIN_POWER + d * POWER_RATE, MAX_POWER)`. -/
def chargePowerAt (d : Int) : Rat :=
  jsMin (MIN_POWER + (d : Rat) * POWER_RATE) MAX_POWER

/-- `ShotSystem.handleMaxCharge` (ShotSystem.ts lines 121-129): when
charging, it assigns `this.MAX_CHARGE_POWER` — a constant that does not
exist on the class, i.e. JS `undefined` — to `currentCharge`, then calls
`this.fire()`, a method that does not exist either, which throws a
TypeError.  The field assignment happens before the throw, so the
resulting state is returned alongside the error; no event is emitted. -/
def handleMaxCharge (s : ShotState) : ShotState × Except String (List ShotEvent) :=
  if s.isCharging = false then (s, Except.ok [])
  else
    ({ s with currentCharge := none },
     Except.error "TypeError: this.fire is not a function")

/-- `ShotSystem.update` (ShotSystem.ts lines 197-217): while charging,
elapsed durations of `MAX_CHARGE_DURATION` or more divert to
`handleMaxCharge`; otherwise the tick recomputes `currentCharge` from the
elapsed duration.  `now` models `Date.now()`. -/
def update (s : ShotState) (now : Int) : ShotState × Except String (List ShotEvent) :=
  if s.isCharging then
    let chargeDuration := now - s.chargeStartTime
    if chargeDuration ≥ MAX_CHARGE_DURATION then handleMaxCharge s
    else ({ s with currentCharge := some (chargePowerAt chargeDuration) }, Except.ok [])
  else (s, Except.ok [])

end ShotSystem

/-! ## Aim state machine (src/src/game/systems/AimSystem.ts) -/

/-- AimSystem state (AimSystem.ts lines 13-29): current and target angles
in degrees, the aiming flag, the last input direction and the time of the
last direction change. -/
structure AimState where
  currentAngle : Rat
  targetAngle : Rat
  isAiming : Bool
  inputDirection : Option PressDir
  lastDirectionChange : Int
deriving DecidableEq, Repr

namespace AimSystem

/-- The initial AimSystem state (field initializers, AimSystem.ts). -/
def initial : AimState :=
  { currentAngle := 0, targetAngle := 0, isAiming := false, inputDirection := none,
    lastDirectionChange := 0 }

/-- `AimSystem.setAimDirection` (AimSystem.ts lines 75-104): a direction
change within 100 ms of the previous one is ignored; otherwise the input
direction is recorded and, when the gate allows `aim` (`allowed` stands
for `isActionAllowed('aim')` in the current Handover state), the target
angle is nudged by `ANGLE_STEP = 2` degrees and clamped to
`[MIN_ANGLE, MAX_ANGLE] = [-80, 80]`. -/
def setAimDirection (s : AimState) (d : PressDir) (now : Int) (allowed : Bool) :
    AimState :=
  if s.inputDirection ≠ some d ∧ now - s.lastDirectionChange < 100 then s
  else
    let s1 := if s.inputDirection ≠ some d then { s with lastDirectionChange := now } else s
    let s2 := { s1 with inputDirection := some d }
    if allowed then
      match d with
      | .left =>
        { s2 with isAiming := true, targetAngle := jsMax (s2.currentAngle - 2) (-80) }
      | .right =>
        { s2 with isAiming := true, targetAngle := jsMin (s2.currentAngle + 2) 80 }
    else s2

/-- `AimSystem.resetAim` (AimSystem.ts lines 109-112). -/
def resetAim (s : AimState) : AimState :=
  { s with isAiming := false, inputDirection := none }

/-- `AimSystem.update` (AimSystem.ts lines 156-178): with no active aiming
input the target recenters to 0; then the current angle moves toward the
target by exponential smoothing (`ANGLE_SMOOTHING = 0.1`), snapping to the
target once within 0.1 degrees.  The returned list carries the
`aim-angle-changed` payloads emitted this tick. -/
def update (s : AimState) : AimState × List Rat :=
  let s1 := if s.isAiming = false ∧ s.inputDirection = none
            then { s with targetAngle := 0 } else s
  if s1.currentAngle ≠ s1.targetAngle then
    let c0 := s1.currentAngle + (s1.targetAngle - s1.currentAngle) * (1/10)
    let c1 := if jsAbs (c0 - s1.targetAngle) < 1/10 then s1.targetAngle else c0
    ({ s1 with currentAngle := c1 }, [c1])
  else (s1, [])

/-- One update tick, discarding the emitted angle events. -/
def tick (s : AimState) : AimState := (update s).1

end AimSystem

/-- A command in an interaction sequence with the aim system: a gated
directional nudge or an update tick. -/
inductive AimCmd where
  | nudge (d : PressDir) (now : Int) (allowed : Bool)
  | tick
deriving DecidableEq, Repr

/-- Run a sequence of nudges and ticks against the aim state machine. -/
def AimSystem.run (s : AimState) : List AimCmd → AimState
  | [] => s
  | AimCmd.nudge d now allowed :: rest =>
    AimSystem.run (AimSystem.setAimDirection s d now allowed) rest
  | AimCmd.tick :: rest => AimSystem.run (AimSystem.tick s) rest

/-- Both angles lie within the configured `[MIN_ANGLE, MAX_ANGLE]` range. -/
def aimInRange (s : AimState) : Prop :=
  -80 ≤ s.currentAngle ∧ s.currentAngle ≤ 80 ∧ -80 ≤ s.targetAngle ∧ s.targetAngle ≤ 80

instance : DecidablePred aimInRange := fun s => by unfold aimInRange; infer_instance

/-! ## Shared helper lemmas -/

/-- `sessionsSet` followed by `sessionsLookup` at the same key returns the
stored session. -/
theorem sessionsLookup_set_self (l : List (String × Session)) (k : String) (v : Session) :
    sessionsLookup (sessionsSet l k v) k = some v := by
  unfold sessionsSet
  by_cases hf : (l.find? (fun p => p.1 = k)).isSome
  · simp only [hf, if_true]
    induction l with
    | nil => simp at hf
    | cons hd tl ih =>
      by_cases hk : hd.1 = k
      · simp [sessionsLookup, hk]
      · have hf' : (tl.find? (fun p => p.1 = k)).isSome := by
          simpa [List.find?_cons_of_neg, hk] using hf
        have := ih hf'
        simpa [sessionsLookup, List.map_cons, hk, List.find?_cons_of_neg] using this
  · simp only [hf, if_false]
    have hnone : l.find? (fun p => decide (p.1 = k)) = none := by
      cases h : l.find? (fun p => decide (p.1 = k)) with
      | none => rfl
      | some p => rw [h] at hf; simp at hf
    simp [sessionsLookup, List.find?_append, hnone]

/-! ## Claim theorems -/

/-- Claim C1: `performAction(a, callback)` invokes the callback and
returns true exactly when the gate allows `a`, i.e. exactly when `a` is in
the `allowedActions` of the current session's current stage; otherwise it
returns false leaving the callback uninvoked; and `isActionAllowed` is
false whenever there is no current session or no current stage. -/
theorem gate_correctness {α : Type} (h : Handover) (a : String) (cb : α → α) (x : α) :
    HandoverManager.performAction h a cb x
        = (h.isActionAllowed a, if h.isActionAllowed a then cb x else x)
    ∧ (h.isActionAllowed a = true ↔
        ∃ stg, h.getCurrentStage = some stg ∧ a ∈ stg.allowedActions)
    ∧ (h.getCurrentSession = none → h.isActionAllowed a = false)
    ∧ (h.getCurrentStage = none → h.isActionAllowed a = false) := by
  refine ⟨?_, ?_, ?_, ?_⟩
  · unfold HandoverManager.performAction
    split <;> simp_all
  · unfold Handover.isActionAllowed
    cases hst : h.getCurrentStage with
    | none => simp
    | some stg => simp [Stage.isActionAllowed, List.contains, List.elem_iff]
  · intro hs
    simp [Handover.isActionAllowed, Handover.getCurrentStage, hs]
  · intro hs
    simp [Handover.isActionAllowed, hs]

/-- Witness for C1 at a concrete gate state: in the `MainMenu` stage,
`startGame` runs its callback and returns true. -/
theorem gate_correctness_witness :
    HandoverManager.performAction demoHandover "startGame" (fun n : Nat => n + 1) 0
      = (true, 1) := by
  rw [(gate_correctness demoHandover "startGame" (fun n : Nat => n + 1) 0).1]
  decide

/-- Claim C4 counterexample: with the gate never initialized but a
session-specific roadmap supplied, `startSession` still returns none (the
claim says this is the one case that should succeed). -/
theorem startSession_uninitialized_cex :
    (Handover.fresh.startSession "session_1" (some HandoverFactory.createGameRoadmap)).2 = none
    ∧ Handover.fresh.initialized = false
    ∧ (some HandoverFactory.createGameRoadmap).isSome = true := by decide

/-- Claim C4 as amended: `startSession(id, roadmap?)` returns none exactly
when the gate was never initialized (a supplied roadmap does not rescue
an uninitialized gate) or when no roadmap is available at all; in every
other case it creates a Session whose `currentStageIndex` is 0, registers
it under `id`, and makes it the current session. -/
theorem startSession_correct (h : Handover) (sid : String) (rm : Option Roadmap) :
    ((h.startSession sid rm).2 = none ↔
      (h.initialized = false ∨ (rm = none ∧ h.defaultRoadmap = none)))
    ∧ (∀ sess, (h.startSession sid rm).2 = some sess →
        sess.currentStageIndex = 0 ∧ sess.id = sid
        ∧ (h.startSession sid rm).1.currentSessionId = some sid
        ∧ sessionsLookup (h.startSession sid rm).1.sessions sid = some sess
        ∧ (h.startSession sid rm).1.getCurrentSession = some sess) := by
  unfold Handover.startSession
  by_cases hinit : h.initialized = false
  · simp [hinit]
  · cases hrm : rm with
    | some r =>
      constructor
      · rw [if_neg hinit]
        simp [hinit]
      · intro sess hsess
        rw [if_neg hinit] at hsess
        have hs := Option.some.inj hsess
        subst hs
        rw [if_neg hinit]
        refine ⟨rfl, rfl, rfl, ?_, ?_⟩
        · exact sessionsLookup_set_self _ _ _
        · simp [Handover.getCurrentSession, sessionsLookup_set_self]
    | none =>
      cases hd : h.defaultRoadmap with
      | some r =>
        constructor
        · rw [if_neg hinit]
          simp [hinit]
        · intro sess hsess
          rw [if_neg hinit] at hsess
          have hs := Option.some.inj hsess
          subst hs
          rw [if_neg hinit]
          refine ⟨rfl, rfl, rfl, ?_, ?_⟩
          · exact sessionsLookup_set_self _ _ _
          · simp [Handover.getCurrentSession, sessionsLookup_set_self]
      | none =>
        constructor
        · rw [if_neg hinit]
          simp [hinit]
        · intro sess hsess
          rw [if_neg hinit] at hsess
          simp at hsess

/-- Witness for C4 (amended) at a concrete input: an initialized gate with
the game roadmap starts a session at stage index 0 and makes it current. -/
theorem startSession_correct_witness :
    ({ id := "s2", roadmap := HandoverFactory.createGameRoadmap,
       currentStageIndex := 0 } : Session).currentStageIndex = 0
    ∧ ((Handover.fresh.initializeSystem HandoverFactory.createGameRoadmap).startSession
        "s2" none).1.currentSessionId = some "s2" := by
  have h := (startSession_correct
    (Handover.fresh.initializeSystem HandoverFactory.createGameRoadmap) "s2" none).2
    { id := "s2", roadmap := HandoverFactory.createGameRoadmap, currentStageIndex := 0 }
    (by decide)
  exact ⟨h.1, h.2.2.1⟩

/-- Claim C5 (code behaviour at the failing input): a successful stage
change — `setStage('Paused')` on the demo gate returns true and moves the
current stage to `Paused` — emits no `handover-stage-changed`
notification, and neither does a successful `advanceStage`; the source
contains no emitter for that event at all. -/
theorem setStage_emits_no_notification :
    (demoHandover.setStage (Sum.inl "Paused")).2.1 = true
    ∧ ((demoHandover.setStage (Sum.inl "Paused")).1.getCurrentStage).map Stage.name
        = some "Paused"
    ∧ (demoHandover.setStage (Sum.inl "Paused")).2.2 = []
    ∧ demoHandover.advanceStage.2.1 = true
    ∧ demoHandover.advanceStage.2.2 = [] := by decide

/-- Claim C9: failed stage navigation is a no-op returning false —
`setStageByName` with an unknown name and `setStage` with an out-of-range
index leave the session unchanged, and `advanceStage` at (or beyond) the
last stage returns false and leaves the index unchanged, otherwise moving
to `currentStageIndex + 1` and returning true. -/
theorem stage_navigation (sess : Session) (nm : String) (i : Int) :
    ((sess.setStageByName nm).2 = false → (sess.setStageByName nm).1 = sess)
    ∧ ((∀ st ∈ sess.roadmap.stages, st.name ≠ nm) → (sess.setStageByName nm).2 = false)
    ∧ (¬(0 ≤ i ∧ i < (sess.roadmap.stages.length : Int)) → sess.setStage i = (sess, false))
    ∧ (¬(sess.currentStageIndex + 1 < sess.roadmap.stages.length) →
        sess.advanceStage = (sess, false))
    ∧ (sess.currentStageIndex + 1 < sess.roadmap.stages.length →
        sess.advanceStage
          = ({ sess with currentStageIndex := sess.currentStageIndex + 1 }, true)) := by
  refine ⟨?_, ?_, ?_, ?_, ?_⟩
  · unfold Session.setStageByName
    cases hidx : sess.roadmap.stages.findIdx? (fun st => st.name = nm) <;> simp
  · intro hall
    unfold Session.setStageByName
    have : sess.roadmap.stages.findIdx? (fun st => decide (st.name = nm)) = none := by
      rw [List.findIdx?_eq_none_iff]
      intro st hst
      simpa using hall st hst
    simp [this]
  · intro hrange
    unfold Session.setStage
    rw [if_neg hrange]
  · intro hlast
    unfold Session.advanceStage
    rw [if_neg hlast]
  · intro hok
    unfold Session.advanceStage
    rw [if_pos hok]

/-- Witness for C9 at concrete inputs: on the six-stage game roadmap, an
unknown name and index 99 fail without mutation, `advanceStage` at the
last stage (index 5) fails, and `advanceStage` at index 0 moves to 1. -/
theorem stage_navigation_witness :
    (Session.setStageByName ⟨"s", HandoverFactory.createGameRoadmap, 0⟩ "DoesNotExist").2
        = false
    ∧ Session.setStage ⟨"s", HandoverFactory.createGameRoadmap, 0⟩ 99
        = (⟨"s", HandoverFactory.createGameRoadmap, 0⟩, false)
    ∧ Session.advanceStage ⟨"s", HandoverFactory.createGameRoadmap, 5⟩
        = (⟨"s", HandoverFactory.createGameRoadmap, 5⟩, false)
    ∧ Session.advanceStage ⟨"s", HandoverFactory.createGameRoadmap, 0⟩
        = (⟨"s", HandoverFactory.createGameRoadmap, 1⟩, true) := by
  refine ⟨?_, ?_, ?_, ?_⟩
  · exact (stage_navigation ⟨"s", HandoverFactory.createGameRoadmap, 0⟩ "DoesNotExist" 0).2.1
      (by decide)
  · exact (stage_navigation ⟨"s", HandoverFactory.createGameRoadmap, 0⟩ "X" 99).2.2.1
      (by decide)
  · exact (stage_navigation ⟨"s", HandoverFactory.createGameRoadmap, 5⟩ "X" 0).2.2.2.1
      (by decide)
  · exact (stage_navigation ⟨"s", HandoverFactory.createGameRoadmap, 0⟩ "X" 0).2.2.2.2
      (by decide)

/-- Claim C2 (code behaviour at the failing input): with the machine
charging since time 0, the update tick at 2000 ms diverts to
`handleMaxCharge`, which assigns the undefined `MAX_CHARGE_POWER`
constant — JS `undefined`, not the maximum 1.0 — to `currentCharge` and
then calls `this.fire()`, a method that does not exist, raising a
TypeError; no `shot-fired` event (with power 1.0 or otherwise) is
emitted.  The input pipeline itself synthesizes its forced-release signal
exactly once and then clears the held flag. -/
theorem forced_release_bug :
    (ShotSystem.update ⟨true, 0, some (1/10), false⟩ 2000).2
        = Except.error "TypeError: this.fire is not a function"
    ∧ (ShotSystem.update ⟨true, 0, some (1/10), false⟩ 2000).1.currentCharge = none
    ∧ (InputSystem.update ⟨[("spacebar", 0)], [("spacebar", true)], [], [], []⟩ 2001).2
        = [InputEvent.chargeMax]
    ∧ (InputSystem.update
        (InputSystem.update ⟨[("spacebar", 0)], [("spacebar", true)], [], [], []⟩ 2001).1
        2500).2 = [] := by
  refine ⟨rfl, rfl, ?_, ?_⟩ <;> decide

/-- Claim C3: while charging, every update tick below the 2000 ms ceiling
sets the power to `min(MIN_POWER + elapsed * POWER_RATE, MAX_POWER)`; that
quantity is non-decreasing in the elapsed time, lies in
`[MIN_POWER, MAX_POWER] = [0.1, 1.0]` for every non-negative elapsed time,
and equals the maximum 1.0 from 1800 ms on — in particular at or before
2000 ms of continuous charging. -/
theorem charge_tick_power (s : ShotState) (now : Int) (h1 : s.isCharging = true)
    (h2 : now - s.chargeStartTime < ShotSystem.MAX_CHARGE_DURATION) :
    ShotSystem.update s now
        = ({ s with currentCharge := some (ShotSystem.chargePowerAt (now - s.chargeStartTime)) },
           Except.ok [])
    ∧ (∀ d e : Int, d ≤ e → ShotSystem.chargePowerAt d ≤ ShotSystem.chargePowerAt e)
    ∧ (∀ d : Int, 0 ≤ d →
        ShotSystem.MIN_POWER ≤ ShotSystem.chargePowerAt d
        ∧ ShotSystem.chargePowerAt d ≤ ShotSystem.MAX_POWER)
    ∧ (∀ d : Int, 1800 ≤ d → ShotSystem.chargePowerAt d = ShotSystem.MAX_POWER) := by
  refine ⟨?_, ?_, ?_, ?_⟩
  · unfold ShotSystem.update
    simp [h1, not_le.mpr h2]
  · intro d e hde
    unfold ShotSystem.chargePowerAt
    rw [jsMin_eq, jsMin_eq]
    apply min_le_min _ le_rfl
    have hc : (d : Rat) ≤ (e : Rat) := by exact_mod_cast hde
    have := mul_le_mul_of_nonneg_right hc
      (by norm_num [ShotSystem.POWER_RATE] : (0 : Rat) ≤ ShotSystem.POWER_RATE)
    linarith
  · intro d hd
    have hc : (0 : Rat) ≤ (d : Rat) := by exact_mod_cast hd
    constructor
    · unfold ShotSystem.chargePowerAt
      rw [jsMin_eq]
      apply le_min
      · have := mul_le_mul_of_nonneg_right hc
          (by norm_num [ShotSystem.POWER_RATE] : (0 : Rat) ≤ ShotSystem.POWER_RATE)
        linarith
      · norm_num [ShotSystem.MIN_POWER, ShotSystem.MAX_POWER]
    · unfold ShotSystem.chargePowerAt
      rw [jsMin_eq]
      exact min_le_right _ _
  · intro d hd
    have hc : (1800 : Rat) ≤ (d : Rat) := by exact_mod_cast hd
    unfold ShotSystem.chargePowerAt
    rw [jsMin_eq]
    apply min_eq_right
    have := mul_le_mul_of_nonneg_right hc
      (by norm_num [ShotSystem.POWER_RATE] : (0 : Rat) ≤ ShotSystem.POWER_RATE)
    unfold ShotSystem.MIN_POWER ShotSystem.POWER_RATE ShotSystem.MAX_POWER at *
    nlinarith

/-- Witness for C3 at concrete inputs: a tick at 1000 ms sets the power
accordingly; the power at 500 ms is at most the power at 1500 ms; at
2000 ms (and already at 1800 ms) the power is the maximum. -/
theorem charge_tick_power_witness :
    ShotSystem.update ⟨true, 0, some (1/10), false⟩ 1000
        = (⟨true, 0, some (ShotSystem.chargePowerAt 1000), false⟩, Except.ok [])
    ∧ ShotSystem.chargePowerAt 500 ≤ ShotSystem.chargePowerAt 1500
    ∧ ShotSystem.chargePowerAt 2000 = ShotSystem.MAX_POWER
    ∧ ShotSystem.chargePowerAt 1800 = ShotSystem.MAX_POWER := by
  have h := charge_tick_power ⟨true, 0, some (1/10), false⟩ 1000 rfl (by decide)
  exact ⟨h.1, h.2.1 500 1500 (by decide), h.2.2.2 2000 (by decide), h.2.2.2 1800 (by decide)⟩

/-! Helper lemmas for the input-pipeline claims. -/

theorem bufferPush_getLast (l : List Int) (x : Int) :
    (InputSystem.bufferPush l x).getLast? = some x := by
  unfold InputSystem.bufferPush
  dsimp only
  split
  · rename_i hlen
    cases l with
    | nil => simp [InputSystem.BUFFER_SIZE] at hlen
    | cons a as =>
      rw [List.cons_append, List.drop_succ_cons, List.drop_zero]
      exact List.getLast?_concat _
  · exact List.getLast?_concat _

theorem bufferPush_isEmpty (l : List Int) (x : Int) :
    (InputSystem.bufferPush l x).isEmpty = false := by
  have h := bufferPush_getLast l x
  cases hb : InputSystem.bufferPush l x with
  | nil => rw [hb] at h; simp at h
  | cons a as => simp

theorem setBuffer_disabledKeys (s : InputState) (d : PressDir) (l : List Int) :
    (s.setBuffer d l).disabledKeys = s.disabledKeys := by
  cases d <;> rfl

theorem buffer_setBuffer_self (s : InputState) (d : PressDir) (l : List Int) :
    (s.setBuffer d l).buffer d = l := by
  cases d <;> rfl

theorem buffer_setBuffer_opposite (s : InputState) (d : PressDir) (l : List Int) :
    (s.setBuffer d l).buffer d.opposite = s.buffer d.opposite := by
  cases d <;> rfl

theorem opposite_opposite (d : PressDir) : d.opposite.opposite = d := by
  cases d <;> rfl

theorem buffer_setBuffer_rl (s : InputState) (l : List Int) :
    (s.setBuffer .right l).buffer .left = s.buffer .left := rfl

theorem buffer_setBuffer_lr (s : InputState) (l : List Int) :
    (s.setBuffer .left l).buffer .right = s.buffer .right := rfl

/-- The state after a non-disabled directional press: the direction's
buffer gets the timestamp pushed, whether or not the press is then
suppressed. -/
theorem handleDirectionalInput_state (h : Handover) (s : InputState) (d : PressDir)
    (now : Int) (hd : s.disabledKeys.contains d.key = false) :
    (InputSystem.handleDirectionalInput h s d now).state
      = s.setBuffer d (InputSystem.bufferPush (s.buffer d) now) := by
  unfold InputSystem.handleDirectionalInput
  rw [hd]
  simp only [Bool.false_eq_true, if_false]
  split <;> rfl

/-- A non-disabled directional press reaches the gate iff the
rapid-reversal filter does not fire on the post-push buffers. -/
theorem handleDirectionalInput_consulted (h : Handover) (s : InputState) (d : PressDir)
    (now : Int) (hd : s.disabledKeys.contains d.key = false) :
    (InputSystem.handleDirectionalInput h s d now).gateConsulted
      = !(InputSystem.isRapidDirectionChange
          (s.setBuffer d (InputSystem.bufferPush (s.buffer d) now)) d) := by
  unfold InputSystem.handleDirectionalInput
  rw [hd]
  simp only [Bool.false_eq_true, if_false]
  split <;> rename_i hr <;> simp [hr]

/-- A suppressed or disabled press emits nothing; in general the events of
a directional press are empty unless the gate was consulted and allowed
`aim`. -/
theorem handleDirectionalInput_suppressed_events (h : Handover) (s : InputState)
    (d : PressDir) (now : Int)
    (hc : (InputSystem.handleDirectionalInput h s d now).gateConsulted = false) :
    (InputSystem.handleDirectionalInput h s d now).events = [] := by
  revert hc
  unfold InputSystem.handleDirectionalInput
  dsimp only
  split
  · intro _
    rfl
  · split
    · intro _
      rfl
    · intro hc
      simp at hc

/-- Evaluate the rapid-reversal filter when the most recent timestamps of
both buffers are known. -/
theorem isRapid_eval (s : InputState) (d : PressDir) (a b : Int)
    (hcur : (s.buffer d).getLast? = some a)
    (hopp : (s.buffer d.opposite).getLast? = some b) :
    InputSystem.isRapidDirectionChange s d = decide (jsAbsInt (a - b) < 50) := by
  unfold InputSystem.isRapidDirectionChange
  dsimp only
  have hne : (s.buffer d.opposite).isEmpty = false := by
    cases hb : s.buffer d.opposite with
    | nil => rw [hb] at hopp; simp at hopp
    | cons x xs => simp
  simp [hne, hcur, hopp]

/-- Claim C8: with a 50 ms rejection window, a press of one direction
followed 20 ms later by a press of the opposite direction suppresses the
second press — no gate check, no domain event — while a further press of
that opposite direction 100 ms after the first press does reach the gate. -/
theorem direction_reversal (h : Handover) (s : InputState) (t : Int)
    (hl : s.disabledKeys.contains "left" = false)
    (hr : s.disabledKeys.contains "right" = false) :
    (InputSystem.handleDirectionalInput h
        (InputSystem.handleDirectionalInput h s .left t).state .right (t + 20)).gateConsulted
        = false
    ∧ (InputSystem.handleDirectionalInput h
        (InputSystem.handleDirectionalInput h s .left t).state .right (t + 20)).events = []
    ∧ (InputSystem.handleDirectionalInput h
        (InputSystem.handleDirectionalInput h
          (InputSystem.handleDirectionalInput h s .left t).state .right (t + 20)).state
        .right (t + 100)).gateConsulted = true := by
  have hs1 := handleDirectionalInput_state h s .left t hl
  have hdis1 : (InputSystem.handleDirectionalInput h s .left t).state.disabledKeys
      = s.disabledKeys := by
    rw [hs1]; exact setBuffer_disabledKeys s .left _
  have hr1 : (InputSystem.handleDirectionalInput h s .left t).state.disabledKeys.contains
      "right" = false := by rw [hdis1]; exact hr
  have hleft1 : ((InputSystem.handleDirectionalInput h s .left t).state.buffer
      PressDir.left).getLast? = some t := by
    rw [hs1, buffer_setBuffer_self]; exact bufferPush_getLast _ _
  -- the second press (right, 20 ms later) is suppressed
  have hrapid2 : InputSystem.isRapidDirectionChange
      ((InputSystem.handleDirectionalInput h s .left t).state.setBuffer .right
        (InputSystem.bufferPush
          ((InputSystem.handleDirectionalInput h s .left t).state.buffer .right) (t + 20)))
      .right = true := by
    rw [isRapid_eval _ _ (t + 20) t]
    · have h20 : (t + 20) - t = 20 := by omega
      rw [h20]; decide
    · rw [buffer_setBuffer_self]; exact bufferPush_getLast _ _
    · rw [buffer_setBuffer_opposite]; exact hleft1
  have hcons2 := handleDirectionalInput_consulted h
    (InputSystem.handleDirectionalInput h s .left t).state .right (t + 20) hr1
  have hc2 : (InputSystem.handleDirectionalInput h
      (InputSystem.handleDirectionalInput h s .left t).state .right (t + 20)).gateConsulted
      = false := by rw [hcons2, hrapid2]; rfl
  refine ⟨hc2, handleDirectionalInput_suppressed_events _ _ _ _ hc2, ?_⟩
  -- the third press (right, 100 ms after the first press) reaches the gate
  have hs2 := handleDirectionalInput_state h
    (InputSystem.handleDirectionalInput h s .left t).state .right (t + 20) hr1
  have hdis2 : (InputSystem.handleDirectionalInput h
      (InputSystem.handleDirectionalInput h s .left t).state .right (t + 20)).state.disabledKeys
      = s.disabledKeys := by
    rw [hs2, setBuffer_disabledKeys, hdis1]
  have hr2 : (InputSystem.handleDirectionalInput h
      (InputSystem.handleDirectionalInput h s .left t).state .right
        (t + 20)).state.disabledKeys.contains "right" = false := by
    rw [hdis2]; exact hr
  have hleft2 : ((InputSystem.handleDirectionalInput h
      (InputSystem.handleDirectionalInput h s .left t).state .right (t + 20)).state.buffer
      PressDir.left).getLast? = some t := by
    rw [hs2, buffer_setBuffer_rl]; exact hleft1
  have hrapid3 : InputSystem.isRapidDirectionChange
      ((InputSystem.handleDirectionalInput h
          (InputSystem.handleDirectionalInput h s .left t).state .right
            (t + 20)).state.setBuffer .right
        (InputSystem.bufferPush
          ((InputSystem.handleDirectionalInput h
              (InputSystem.handleDirectionalInput h s .left t).state .right
                (t + 20)).state.buffer .right) (t + 100)))
      .right = false := by
    rw [isRapid_eval _ _ (t + 100) t]
    · have h100 : (t + 100) - t = 100 := by omega
      rw [h100]; decide
    · rw [buffer_setBuffer_self]; exact bufferPush_getLast _ _
    · rw [buffer_setBuffer_opposite]; exact hleft2
  have hcons3 := handleDirectionalInput_consulted h
    (InputSystem.handleDirectionalInput h
      (InputSystem.handleDirectionalInput h s .left t).state .right (t + 20)).state
    .right (t + 100) hr2
  rw [hcons3, hrapid3]
  rfl

/-- Witness for C8 at concrete inputs: from a fresh input state on the
demo gate, left at 1000 ms then right at 1020 ms is suppressed, and right
at 1100 ms reaches the gate. -/
theorem direction_reversal_witness :
    (InputSystem.handleDirectionalInput demoHandover
        (InputSystem.handleDirectionalInput demoHandover InputState.initial .left 1000).state
        .right 1020).gateConsulted = false
    ∧ (InputSystem.handleDirectionalInput demoHandover
        (InputSystem.handleDirectionalInput demoHandover InputState.initial .left 1000).state
        .right 1020).events = []
    ∧ (InputSystem.handleDirectionalInput demoHandover
        (InputSystem.handleDirectionalInput demoHandover
          (InputSystem.handleDirectionalInput demoHandover InputState.initial .left 1000).state
          .right 1020).state
        .right 1100).gateConsulted = true :=
  direction_reversal demoHandover InputState.initial 1000 (by decide) (by decide)

/-- Claim C10: every non-disabled directional press appends its timestamp
to that direction's buffer before the rapid-reversal check runs — so the
timestamp is recorded even when the press is then dropped — and
consequently any opposite-direction press within the 50 ms window of that
timestamp is suppressed (no gate check, no domain event), regardless of
whether the earlier press was itself suppressed. -/
theorem suppressed_press_still_buffered (h h' : Handover) (s : InputState) (d : PressDir)
    (t1 t2 : Int) (hd1 : s.disabledKeys.contains d.key = false)
    (hd2 : s.disabledKeys.contains d.opposite.key = false)
    (hwin : jsAbsInt (t2 - t1) < 50) :
    ((InputSystem.handleDirectionalInput h s d t1).state.buffer d).getLast? = some t1
    ∧ (InputSystem.handleDirectionalInput h'
        (InputSystem.handleDirectionalInput h s d t1).state d.opposite t2).gateConsulted
        = false
    ∧ (InputSystem.handleDirectionalInput h'
        (InputSystem.handleDirectionalInput h s d t1).state d.opposite t2).events = [] := by
  have hs1 := handleDirectionalInput_state h s d t1 hd1
  have hbuf1 : ((InputSystem.handleDirectionalInput h s d t1).state.buffer d).getLast?
      = some t1 := by
    rw [hs1, buffer_setBuffer_self]; exact bufferPush_getLast _ _
  have hdis1 : (InputSystem.handleDirectionalInput h s d t1).state.disabledKeys
      = s.disabledKeys := by rw [hs1]; exact setBuffer_disabledKeys s d _
  have hd2' : (InputSystem.handleDirectionalInput h s d t1).state.disabledKeys.contains
      d.opposite.key = false := by rw [hdis1]; exact hd2
  have hrapid : InputSystem.isRapidDirectionChange
      ((InputSystem.handleDirectionalInput h s d t1).state.setBuffer d.opposite
        (InputSystem.bufferPush
          ((InputSystem.handleDirectionalInput h s d t1).state.buffer d.opposite) t2))
      d.opposite = true := by
    rw [isRapid_eval _ _ t2 t1]
    · exact decide_eq_true hwin
    · rw [buffer_setBuffer_self]; exact bufferPush_getLast _ _
    · rw [buffer_setBuffer_opposite, opposite_opposite]; exact hbuf1
  have hcons := handleDirectionalInput_consulted h'
    (InputSystem.handleDirectionalInput h s d t1).state d.opposite t2 hd2'
  have hc : (InputSystem.handleDirectionalInput h'
      (InputSystem.handleDirectionalInput h s d t1).state d.opposite t2).gateConsulted
      = false := by rw [hcons, hrapid]; rfl
  exact ⟨hbuf1, hc, handleDirectionalInput_suppressed_events _ _ _ _ hc⟩

/-- Witness for C10 at concrete inputs: a right press at 20 ms that is
itself suppressed (it followed a left press at 0 ms) still lands in the
right buffer, and a left press at 40 ms — within 50 ms of it — is
suppressed in turn. -/
theorem suppressed_press_still_buffered_witness :
    (((InputSystem.handleDirectionalInput demoHandover
        (InputSystem.handleDirectionalInput demoHandover InputState.initial .left 0).state
        .right 20).state.buffer PressDir.right).getLast? = some 20)
    ∧ (InputSystem.handleDirectionalInput demoHandover
        (InputSystem.handleDirectionalInput demoHandover
          (InputSystem.handleDirectionalInput demoHandover InputState.initial .left 0).state
          .right 20).state
        PressDir.left 40).gateConsulted = false :=
  have h := suppressed_press_still_buffered demoHandover demoHandover
    (InputSystem.handleDirectionalInput demoHandover InputState.initial .left 0).state
    .right 20 40 (by decide) (by decide) (by decide)
  ⟨h.1, h.2.1⟩

/-! Helper lemmas for the aim-state-machine claims. -/

/-- A gated directional nudge keeps both angles inside `[-80, 80]`. -/
theorem setAimDirection_inRange (s : AimState) (d : PressDir) (now : Int) (allowed : Bool)
    (h : aimInRange s) : aimInRange (AimSystem.setAimDirection s d now allowed) := by
  obtain ⟨h1, h2, h3, h4⟩ := h
  unfold AimSystem.setAimDirection
  dsimp only
  split
  · exact ⟨h1, h2, h3, h4⟩
  · split
    · cases d
      · simp only [aimInRange, apply_ite AimState.currentAngle, ite_self, jsMax_eq]
        exact ⟨h1, h2, le_max_right _ _, max_le (by linarith) (by norm_num)⟩
      · simp only [aimInRange, apply_ite AimState.currentAngle, ite_self, jsMin_eq]
        exact ⟨h1, h2, le_min (by linarith) (by norm_num), min_le_right _ _⟩
    · simp only [aimInRange, apply_ite AimState.currentAngle, apply_ite AimState.targetAngle,
        ite_self]
      exact ⟨h1, h2, h3, h4⟩

/-- An update tick keeps both angles inside `[-80, 80]`. -/
theorem update_inRange (s : AimState) (h : aimInRange s) : aimInRange (AimSystem.tick s) := by
  obtain ⟨h1, h2, h3, h4⟩ := h
  unfold AimSystem.tick AimSystem.update
  dsimp only
  split_ifs <;>
    refine ⟨?_, ?_, ?_, ?_⟩ <;>
      dsimp only <;>
      first
        | assumption
        | linarith

/-- Claim C6: for every sequence of directional nudges and update ticks
starting from angles inside `[-80, 80]`, both `currentAngle` and
`targetAngle` stay inside `[-80, 80]`, however often the target is nudged
past either bound. -/
theorem aim_clamping (s : AimState) (cmds : List AimCmd) (h : aimInRange s) :
    aimInRange (AimSystem.run s cmds) := by
  induction cmds generalizing s with
  | nil => exact h
  | cons c rest ih =>
    cases c with
    | nudge d now allowed => exact ih _ (setAimDirection_inRange s d now allowed h)
    | tick => exact ih _ (update_inRange s h)

/-- Witness for C6 at a concrete run: repeated right nudges with ticks
from the initial state stay inside the angular range. -/
theorem aim_clamping_witness :
    aimInRange (AimSystem.run AimSystem.initial
      [AimCmd.nudge .right 100 true, AimCmd.tick, AimCmd.nudge .right 250 true, AimCmd.tick,
       AimCmd.nudge .left 400 true, AimCmd.tick]) :=
  aim_clamping AimSystem.initial _ (by norm_num [AimSystem.initial, aimInRange])

/-- With no aiming input active, a tick keeps the released flags and
recenters the target to 0. -/
theorem tick_released (s : AimState) (h1 : s.isAiming = false)
    (h2 : s.inputDirection = none) :
    (AimSystem.tick s).isAiming = false ∧ (AimSystem.tick s).inputDirection = none
    ∧ (AimSystem.tick s).targetAngle = 0 := by
  unfold AimSystem.tick AimSystem.update
  dsimp only
  have hrel : (s.isAiming = false ∧ s.inputDirection = none) := ⟨h1, h2⟩
  rw [if_pos hrel]
  dsimp only
  split_ifs <;> exact ⟨h1, h2, rfl⟩

/-- With no aiming input active, each tick contracts the current angle by
at least the smoothing factor 0.9. -/
theorem tick_abs_le (s : AimState) (h1 : s.isAiming = false)
    (h2 : s.inputDirection = none) :
    |(AimSystem.tick s).currentAngle| ≤ (9/10) * |s.currentAngle| := by
  unfold AimSystem.tick AimSystem.update
  dsimp only
  have hrel : (s.isAiming = false ∧ s.inputDirection = none) := ⟨h1, h2⟩
  rw [if_pos hrel]
  dsimp only
  by_cases hc : s.currentAngle = (0 : Rat)
  · rw [if_neg (show ¬(s.currentAngle ≠ 0) from not_not_intro hc)]
    show |s.currentAngle| ≤ (9/10) * |s.currentAngle|
    rw [hc]
    simp
  · rw [if_pos (show s.currentAngle ≠ 0 from hc)]
    show |if jsAbs (s.currentAngle + ((0 : Rat) - s.currentAngle) * (1/10) - 0) < 1/10
          then (0 : Rat) else s.currentAngle + ((0 : Rat) - s.currentAngle) * (1/10)|
        ≤ (9/10) * |s.currentAngle|
    split_ifs with hsnap
    · rw [abs_zero]
      positivity
    · have he : s.currentAngle + ((0 : Rat) - s.currentAngle) * (1/10)
          = (9/10) * s.currentAngle := by ring
      rw [he, abs_mul, abs_of_nonneg (by norm_num : (0 : Rat) ≤ 9/10)]

/-- Once the current angle is below 1/9 of a degree in absolute value, the
next released tick snaps it exactly to 0. -/
theorem tick_snap_zero (s : AimState) (h1 : s.isAiming = false)
    (h2 : s.inputDirection = none) (hsmall : |s.currentAngle| < 1/9) :
    (AimSystem.tick s).currentAngle = 0 := by
  unfold AimSystem.tick AimSystem.update
  dsimp only
  have hrel : (s.isAiming = false ∧ s.inputDirection = none) := ⟨h1, h2⟩
  rw [if_pos hrel]
  dsimp only
  by_cases hc : s.currentAngle = (0 : Rat)
  · rw [if_neg (show ¬(s.currentAngle ≠ 0) from not_not_intro hc)]
    exact hc
  · rw [if_pos (show s.currentAngle ≠ 0 from hc)]
    show (if jsAbs (s.currentAngle + ((0 : Rat) - s.currentAngle) * (1/10) - 0) < 1/10
          then (0 : Rat) else s.currentAngle + ((0 : Rat) - s.currentAngle) * (1/10)) = 0
    have habs : jsAbs (s.currentAngle + ((0 : Rat) - s.currentAngle) * (1/10) - 0) < 1/10 := by
      rw [jsAbs_eq]
      have he : s.currentAngle + ((0 : Rat) - s.currentAngle) * (1/10) - 0
          = (9/10) * s.currentAngle := by ring
      rw [he, abs_mul, abs_of_nonneg (by norm_num : (0 : Rat) ≤ 9/10)]
      calc (9/10 : Rat) * |s.currentAngle| < (9/10) * (1/9) :=
            mul_lt_mul_of_pos_left hsmall (by norm_num)
        _ = 1/10 := by norm_num
    rw [if_pos habs]

/-- Iterating released ticks keeps the released flags and contracts the
current angle geometrically. -/
theorem tick_iter_abs (s : AimState) (h1 : s.isAiming = false)
    (h2 : s.inputDirection = none) (n : Nat) :
    (AimSystem.tick^[n] s).isAiming = false
    ∧ (AimSystem.tick^[n] s).inputDirection = none
    ∧ |(AimSystem.tick^[n] s).currentAngle| ≤ (9/10)^n * |s.currentAngle| := by
  induction n with
  | zero =>
    refine ⟨h1, h2, ?_⟩
    simp
  | succ n ih =>
    obtain ⟨ia, idn, iabs⟩ := ih
    rw [Function.iterate_succ_apply']
    have hrel := tick_released _ ia idn
    refine ⟨hrel.1, hrel.2.1, ?_⟩
    calc |(AimSystem.tick (AimSystem.tick^[n] s)).currentAngle|
        ≤ (9/10) * |(AimSystem.tick^[n] s).currentAngle| := tick_abs_le _ ia idn
      _ ≤ (9/10) * ((9/10)^n * |s.currentAngle|) :=
          mul_le_mul_of_nonneg_left iabs (by norm_num)
      _ = (9/10)^(n+1) * |s.currentAngle| := by ring

/-- Claim C7: once both directions are released (no aiming flag, no input
direction) and the current angle is inside the range, repeated update
ticks drive the target back to 0 and the current angle reaches exactly 0
after finitely many ticks, via the 0.1-degree snap. -/
theorem aim_recentering (s : AimState) (h1 : s.isAiming = false)
    (h2 : s.inputDirection = none) (h3 : |s.currentAngle| ≤ 80) :
    ∃ n : Nat, (AimSystem.tick^[n] s).currentAngle = 0
      ∧ (AimSystem.tick^[n] s).targetAngle = 0 := by
  obtain ⟨ia, idn, iabs⟩ := tick_iter_abs s h1 h2 63
  have hsmall : |(AimSystem.tick^[63] s).currentAngle| < 1/9 := by
    calc |(AimSystem.tick^[63] s).currentAngle| ≤ (9/10)^63 * |s.currentAngle| := iabs
      _ ≤ (9/10)^63 * 80 := mul_le_mul_of_nonneg_left h3 (by positivity)
      _ < 1/9 := by norm_num
  have h64 : AimSystem.tick^[64] s = AimSystem.tick (AimSystem.tick^[63] s) :=
    Function.iterate_succ_apply' AimSystem.tick 63 s
  refine ⟨64, ?_, ?_⟩
  · rw [h64]
    exact tick_snap_zero _ ia idn hsmall
  · rw [h64]
    exact (tick_released _ ia idn).2.2

/-- Witness for C7 at a concrete state: released at the extreme angle 80,
the machine reaches current and target angle exactly 0 after finitely
many ticks. -/
theorem aim_recentering_witness :
    ∃ n : Nat, (AimSystem.tick^[n] ⟨80, 80, false, none, 0⟩).currentAngle = 0
      ∧ (AimSystem.tick^[n] ⟨80, 80, false, none, 0⟩).targetAngle = 0 :=
  aim_recentering ⟨80, 80, false, none, 0⟩ rfl rfl (by norm_num)
